import Mathlib

set_option maxRecDepth 10000

/-- Product record: the single domain entity; `id` is optional until the
backend assigns one on creation. -/
structure Product where
  id : Option Nat
  name : String
  price : Int
  stock : Int
deriving DecidableEq

namespace Dashboard

/-- Value of the reactive form group; a control holds `none` after reset
(Angular sets controls to null). -/
structure ProductFormValue where
  name : Option String
  price : Option Int
  stock : Option Int
deriving DecidableEq

/-- Validity of the name control: Validators.required plus
Validators.minLength 2, as declared in the component constructor. -/
def nameControlValid : Option String → Bool
  | none => false
  | some s => (s != "") && decide (2 ≤ s.length)

/-- Validity of the price control: Validators.required plus
Validators.min 1, as declared in the component constructor. -/
def priceControlValid : Option Int → Bool
  | none => false
  | some v => decide (1 ≤ v)

/-- Validity of the stock control: Validators.required plus
Validators.min 1, as declared in the component constructor. -/
def stockControlValid : Option Int → Bool
  | none => false
  | some v => decide (1 ≤ v)

/-- Validity of the whole form group. -/
def formValid (f : ProductFormValue) : Bool :=
  nameControlValid f.name && priceControlValid f.price && stockControlValid f.stock

/-- Controller state of ProductDashboardComponent. `modalRef` records
whether a modal handle is currently held (the field is non-null);
`modalOpen` whether the held dialog is still shown. -/
structure DashState where
  products : List Product
  productToDelete : Option Nat
  isLoading : Bool
  errorMessage : String
  modalRef : Bool
  modalOpen : Bool
  form : ProductFormValue
deriving DecidableEq

/-- A network call issued through ProductService. -/
inductive Call where
  | getProducts
  | addProduct (p : Product)
  | deleteProduct (id : Nat)
  | resetDb
deriving DecidableEq

/-- Outcome of a subscribed observable: next-with-value or error. -/
inductive Outcome (α : Type) where
  | ok (a : α)
  | err
deriving DecidableEq

/-- Error string assigned by loadProducts on failure. -/
def loadErrorMsg : String := "Error loading products. Make sure json-server is running."

/-- Error string assigned by onSubmit on failure. -/
def addErrorMsg : String := "Error adding the product"

/-- Error string assigned by confirmDelete on failure. -/
def deleteErrorMsg : String := "Error deleting the product. Verify that json-server is running."

/-- Error string assigned by resetDatabase on failure. -/
def resetErrorMsg : String := "Error resetting the database. Verify that json-server is running."

/-- The form value produced by productForm.reset(): all controls null. -/
def resetFormValue : ProductFormValue := ⟨none, none, none⟩

/-- closeModal(): if a handle is held, close it and drop it; then reset
the form. -/
def closeModal (st : DashState) : DashState :=
  let st1 := if st.modalRef then { st with modalOpen := false, modalRef := false } else st
  { st1 with form := resetFormValue }

/-- loadProducts(): set isLoading, clear errorMessage, subscribe to
getProducts; the response callback updates the state. -/
def loadProducts (st : DashState) (resp : Outcome (List Product)) : DashState × List Call :=
  let st1 := { st with isLoading := true, errorMessage := "" }
  match resp with
  | .ok ps => ({ st1 with products := ps, isLoading := false }, [Call.getProducts])
  | .err => ({ st1 with errorMessage := loadErrorMsg, isLoading := false }, [Call.getProducts])

/-- The Product sent by onSubmit: the form value, with no id. -/
def formProduct (f : ProductFormValue) : Product :=
  ⟨none, f.name.getD "", f.price.getD 0, f.stock.getD 0⟩

/-- onSubmit(): only when the form is valid, subscribe to addProduct with
the form value; on success push the created product and close the modal,
on error set the error string. -/
def onSubmit (st : DashState) (resp : Outcome Product) : DashState × List Call :=
  if formValid st.form then
    match resp with
    | .ok p =>
        (closeModal { st with products := st.products ++ [p] },
         [Call.addProduct (formProduct st.form)])
    | .err =>
        ({ st with errorMessage := addErrorMsg }, [Call.addProduct (formProduct st.form)])
  else (st, [])

/-- JS truthiness of the `productToDelete : number | null` field:
null and 0 are falsy. -/
def pendingTruthy : Option Nat → Bool
  | none => false
  | some n => n != 0

/-- confirmDelete(): guarded by `productToDelete && modalRef`; when the
guard passes, set isLoading, clear the error, close the dialog and
subscribe to deleteProduct; the success callback filters the list by id
inequality, the error callback sets the error string; both clear
productToDelete and isLoading. -/
def confirmDelete (st : DashState) (resp : Outcome Unit) : DashState × List Call :=
  if pendingTruthy st.productToDelete && st.modalRef then
    let st1 := { st with isLoading := true, errorMessage := "", modalOpen := false }
    let id := st.productToDelete.getD 0
    match resp with
    | .ok _ =>
        ({ st1 with
            products := st1.products.filter (fun p => p.id != st.productToDelete),
            isLoading := false,
            productToDelete := none }, [Call.deleteProduct id])
    | .err =>
        ({ st1 with errorMessage := deleteErrorMsg, isLoading := false, productToDelete := none },
         [Call.deleteProduct id])
  else (st, [])

/-- cancelDelete(): if a handle is held, close and drop it; clear
productToDelete; no network call. -/
def cancelDelete (st : DashState) : DashState × List Call :=
  let st1 := if st.modalRef then { st with modalOpen := false, modalRef := false } else st
  ({ st1 with productToDelete := none }, [])

/-- resetDatabase() on the component: behind the confirm() prompt, set
isLoading, clear the error, subscribe to the service reset; on success
replace the list, on error set the error string. -/
def resetDatabase (st : DashState) (confirmed : Bool) (resp : Outcome (List Product)) :
    DashState × List Call :=
  if confirmed then
    let st1 := { st with isLoading := true, errorMessage := "" }
    match resp with
    | .ok ps =>
        ({ st1 with products := ps, isLoading := false, errorMessage := "" }, [Call.resetDb])
    | .err => ({ st1 with errorMessage := resetErrorMsg, isLoading := false }, [Call.resetDb])
  else (st, [])

/-- trackByProductId: `product.id || index` in JS, so an id of 0 is falsy
and falls back to the index. -/
def trackByProductId (index : Nat) (product : Product) : Nat :=
  match product.id with
  | some n => if n = 0 then index else n
  | none => index

end Dashboard

namespace ProductService

/-- A row persisted on the json-server backend: stored records always
carry an id. -/
structure Row where
  id : Nat
  name : String
  price : Int
  stock : Int
deriving DecidableEq

/-- Backend database state: the stored rows plus the next id the server
will assign. -/
structure Backend where
  rows : List Row
  nextId : Nat
deriving DecidableEq

/-- An HTTP request issued against the products endpoint. -/
inductive Request where
  | getAll
  | delete (id : Nat)
  | post (p : Product)
deriving DecidableEq

/-- Network state threaded through the service operations: the backend
plus the trace of requests issued so far, in order. -/
structure NetState where
  backend : Backend
  trace : List Request
deriving DecidableEq

/-- The wire representation of a stored row. -/
def toProduct (r : Row) : Product := ⟨some r.id, r.name, r.price, r.stock⟩

/-- getProducts(): GET on the collection, emitting every stored row. -/
def getProductsOp (s : NetState) : List Product × NetState :=
  (s.backend.rows.map toProduct, { s with trace := s.trace ++ [Request.getAll] })

/-- deleteProduct(id): DELETE by id; the backend drops the row with that
id. -/
def deleteProductOp (id : Nat) (s : NetState) : Unit × NetState :=
  ((), { backend := { s.backend with rows := s.backend.rows.filter (fun r => r.id != id) },
         trace := s.trace ++ [Request.delete id] })

/-- addProduct(p): POST; the backend stores the payload under a freshly
assigned id and the created product is emitted. -/
def addProductOp (p : Product) (s : NetState) : Product × NetState :=
  let row : Row := ⟨s.backend.nextId, p.name, p.price, p.stock⟩
  (toProduct row,
   { backend := { rows := s.backend.rows ++ [row], nextId := s.backend.nextId + 1 },
     trace := s.trace ++ [Request.post p] })

/-- Run a batch of single-emission HTTP observables, gathering their
emissions in order. -/
def runAll {α : Type} : List (NetState → α × NetState) → NetState → List α × NetState
  | [], s => ([], s)
  | op :: rest, s =>
      let r := op s
      let rr := runAll rest r.2
      (r.1 :: rr.1, rr.2)

/-- forkJoin: joins a batch of sources; with an empty source list it
completes without ever emitting (modelled as `none`), which is why the
source code guards the empty case separately. -/
def forkJoin {α : Type} : List (NetState → α × NetState) → NetState →
    Option (List α) × NetState
  | [], s => (none, s)
  | op :: rest, s => (some (runAll (op :: rest) s).1, (runAll (op :: rest) s).2)

/-- The fixed six-product seed list from resetDatabase. -/
def initialProducts : List Product :=
  [⟨none, "iPhone 15", 849990, 10⟩,
   ⟨none, "MacBook Pro", 2499990, 5⟩,
   ⟨none, "iPad Air", 649990, 15⟩,
   ⟨none, "Apple Watch Series 9", 399990, 20⟩,
   ⟨none, "AirPods Pro", 249990, 25⟩,
   ⟨none, "Mac Studio", 1999990, 3⟩]

/-- resetDatabase(): list everything, then (unless nothing exists, a case
the code short-circuits with of([]) rather than an empty forkJoin) delete
every listed product in one forkJoin, then create the six seed products
in a second forkJoin and emit them in seed order. -/
def resetDatabase (s : NetState) : Option (List Product) × NetState :=
  let g := getProductsOp s
  let existingProducts := g.1
  let deleteRequests := existingProducts.map (fun p => deleteProductOp (p.id.getD 0))
  let afterDeletes : Option (List Unit) × NetState :=
    if deleteRequests.length = 0 then (some [], g.2)
    else forkJoin deleteRequests g.2
  match afterDeletes.1 with
  | none => (none, afterDeletes.2)
  | some _ =>
      let createRequests := initialProducts.map (fun p => addProductOp p)
      forkJoin createRequests afterDeletes.2

/-- The products created from a payload list when the backend starts
assigning ids at `n`. -/
def annotate : List Product → Nat → List Product
  | [], _ => []
  | p :: rest, n => { p with id := some n } :: annotate rest (n + 1)

/-- The rows stored for a payload list when the backend starts assigning
ids at `n`. -/
def annotateRows : List Product → Nat → List Row
  | [], _ => []
  | p :: rest, n => ⟨n, p.name, p.price, p.stock⟩ :: annotateRows rest (n + 1)

/-- One backend deletion step, as performed by deleteProductOp. -/
def deleteRow (rows : List Row) (id : Nat) : List Row :=
  rows.filter (fun r => r.id != id)

end ProductService

namespace ClpCurrencyPipe

/-- A JS-side input to the pipe: number | null | undefined, with NaN
kept as its own case. -/
inductive NumInput where
  | null
  | undef
  | nan
  | num (v : Int)
deriving DecidableEq

/-- Insert the es-CL thousands separator into a reversed digit list;
`k` counts the digits already placed in the current group of three. -/
def groupRevAux : List Char → Nat → List Char
  | [], _ => []
  | c :: cs, k =>
      if k = 3 then '.' :: c :: groupRevAux cs 1 else c :: groupRevAux cs (k + 1)

/-- toLocaleString with es-CL and zero fraction digits, on a natural
number: decimal digits grouped in threes with a dot. -/
def formatNat (n : Nat) : String :=
  String.mk ((groupRevAux (Nat.toDigits 10 n).reverse 0).reverse)

/-- toLocaleString with es-CL and zero fraction digits, on an integer:
the sign precedes the grouped digits. -/
def toLocaleStringEsCL (v : Int) : String :=
  if v < 0 then "-" ++ formatNat v.natAbs else formatNat v.natAbs

/-- ClpCurrencyPipe.transform. -/
def transform (value : NumInput) (showSymbol : Bool) : String :=
  match value with
  | .null | .undef | .nan => if showSymbol then "$0" else "0"
  | .num v =>
      let formatted := toLocaleStringEsCL v
      if showSymbol then "$" ++ formatted else formatted

/-- Spec-side grouping check, written from the spec words (clusters of
three digits separated by dots): scan the rendered characters from the
least-significant end, counting digits in the current cluster; a
separator is legal exactly after a completed cluster of three, and the
leading cluster holds one to three digits. -/
def wgRev : List Char → Nat → Bool
  | [], k => decide (1 ≤ k) && decide (k ≤ 3)
  | c :: cs, k =>
      if c = '.' then (k == 3) && wgRev cs 0
      else c.isDigit && decide (k < 3) && wgRev cs (k + 1)

/-- Spec-side predicate: the string is a dot-grouped cluster rendering of
a digit sequence. -/
def wellGrouped (s : String) : Bool := wgRev s.data.reverse 0

end ClpCurrencyPipe

namespace Samples

open Dashboard

/-- A concrete product whose backend id is 1. -/
def pA : Product := ⟨some 1, "iPhone 15", 849990, 10⟩

/-- A concrete product whose backend id is 2. -/
def pB : Product := ⟨some 2, "MacBook Pro", 2499990, 5⟩

/-- A concrete product with id 0, which JS truthiness treats as absent. -/
def zeroIdProduct : Product := ⟨some 0, "Freebie", 10, 1⟩

/-- A concrete controller state holding an invalid form (empty name). -/
def invalidFormState : DashState :=
  { products := [pA], productToDelete := none, isLoading := false,
    errorMessage := "", modalRef := true, modalOpen := true,
    form := ⟨some "", some 100, some 5⟩ }

/-- A concrete controller state holding a valid form while isLoading is
still true. -/
def submitErrorState : DashState :=
  { products := [pA], productToDelete := none, isLoading := true,
    errorMessage := "", modalRef := true, modalOpen := true,
    form := ⟨some "iPhone", some 100, some 5⟩ }

/-- A concrete controller state with a pending delete of id 1 and a held
confirmation dialog. -/
def deleteState : DashState :=
  { products := [pA, pB], productToDelete := some 1, isLoading := false,
    errorMessage := "", modalRef := true, modalOpen := true,
    form := ⟨none, none, none⟩ }

/-- A concrete controller state with a pending delete id but no held
dialog handle. -/
def noModalState : DashState :=
  { products := [pA, pB], productToDelete := some 1, isLoading := false,
    errorMessage := "old", modalRef := false, modalOpen := false,
    form := ⟨none, none, none⟩ }

/-- A concrete controller state with a valid form, a pending delete and a
held dialog, exercising every error branch. -/
def errorBranchState : DashState :=
  { products := [pA, pB], productToDelete := some 1, isLoading := false,
    errorMessage := "", modalRef := true, modalOpen := true,
    form := ⟨some "iPhone", some 100, some 5⟩ }

end Samples

namespace Dashboard

/-- Every element survives `filter (fun p => !q p)` except the `countP q`
matches. -/
theorem length_filter_not {α : Type} (l : List α) (q : α → Bool) :
    (l.filter (fun p => !q p)).length + l.countP q = l.length := by
  induction l with
  | nil => simp
  | cons a l ih =>
      by_cases h : q a = true <;>
        simp [List.filter_cons, List.countP_cons, h, ih] <;> omega

/-- Claim C6: with an invalid form, onSubmit issues no network call and
changes no field of the controller state. -/
theorem onSubmit_invalid_noop (st : DashState) (resp : Outcome Product)
    (h : formValid st.form = false) : onSubmit st resp = (st, []) := by
  simp [onSubmit, h]

/-- Witness for C6 at a concrete state whose form has an empty name. -/
theorem onSubmit_invalid_noop_witness :
    formValid Samples.invalidFormState.form = false ∧
    onSubmit Samples.invalidFormState Outcome.err = (Samples.invalidFormState, []) :=
  ⟨by decide, onSubmit_invalid_noop Samples.invalidFormState Outcome.err (by decide)⟩

/-- Claim C9: cancelDelete leaves products, isLoading, errorMessage and
the form unchanged, clears productToDelete, drops the dialog handle, and
issues no network call. -/
theorem cancelDelete_frame (st : DashState) :
    (cancelDelete st).1.products = st.products ∧
    (cancelDelete st).1.isLoading = st.isLoading ∧
    (cancelDelete st).1.errorMessage = st.errorMessage ∧
    (cancelDelete st).1.form = st.form ∧
    (cancelDelete st).1.productToDelete = none ∧
    (cancelDelete st).1.modalRef = false ∧
    (cancelDelete st).2 = [] := by
  by_cases h : st.modalRef = true <;> simp [cancelDelete, h]

/-- Claim C10: without a held dialog handle, confirmDelete is a complete
no-op even when a pending delete id is set. -/
theorem confirmDelete_no_modal_noop (st : DashState) (resp : Outcome Unit)
    (h : st.modalRef = false) : confirmDelete st resp = (st, []) := by
  simp [confirmDelete, h]

/-- Witness for C10 at a concrete state with a pending id and no held
handle. -/
theorem confirmDelete_no_modal_noop_witness :
    Samples.noModalState.productToDelete = some 1 ∧
    Samples.noModalState.modalRef = false ∧
    confirmDelete Samples.noModalState (Outcome.ok ()) = (Samples.noModalState, []) :=
  ⟨rfl, rfl, confirmDelete_no_modal_noop Samples.noModalState (Outcome.ok ()) rfl⟩

/-- Claim C3 (evaluating the code at the failing input): the price
control's validator is min 1, so 50 is accepted by the form layer even
though the repository's unit test and the spec require a minimum of
100. -/
theorem priceControl_accepts_50 :
    priceControlValid (some 50) = true ∧ priceControlValid (some 100) = true ∧
    priceControlValid (some 1) = true ∧ priceControlValid (some 0) = false := by
  decide

/-- Counterexample to C8: a product whose id is 0 is present, yet
trackByProductId falls back to the index because 0 is falsy in JS. -/
theorem trackByProductId_zero_id :
    Samples.zeroIdProduct.id = some 0 ∧
    trackByProductId 5 Samples.zeroIdProduct = 5 ∧
    trackByProductId 5 Samples.zeroIdProduct ≠ 0 := by
  decide

/-- Claim C8 (amended): trackByProductId returns the id whenever it is
present and nonzero, and the index when the id is absent or zero. -/
theorem trackByProductId_spec (index : Nat) (p : Product) :
    (p.id = none → trackByProductId index p = index) ∧
    (p.id = some 0 → trackByProductId index p = index) ∧
    (∀ n : Nat, p.id = some n → n ≠ 0 → trackByProductId index p = n) := by
  refine ⟨fun h => ?_, fun h => ?_, fun n h hn => ?_⟩
  · simp [trackByProductId, h]
  · simp [trackByProductId, h]
  · simp [trackByProductId, h, hn]

/-- Witness for C8 (amended) at a product with id 1. -/
theorem trackByProductId_spec_witness :
    Samples.pA.id = some 1 ∧ (1 : Nat) ≠ 0 ∧ trackByProductId 5 Samples.pA = 1 :=
  ⟨rfl, by decide, (trackByProductId_spec 5 Samples.pA).2.2 1 rfl (by decide)⟩

/-- Counterexample to C4: at a state where isLoading is true, a failing
create leaves isLoading true, because the onSubmit error callback never
assigns isLoading. -/
theorem submit_error_keeps_isLoading :
    formValid Samples.submitErrorState.form = true ∧
    Samples.submitErrorState.isLoading = true ∧
    (onSubmit Samples.submitErrorState Outcome.err).1.isLoading = true := by
  decide

/-- Claim C4 (amended): for every controller state, every failing network
call sets errorMessage to its fixed string and leaves products unchanged;
loadProducts, confirmDelete and resetDatabase additionally set isLoading
to false, while the onSubmit error branch (reachable only when the form
validated) leaves isLoading untouched. -/
theorem networkError_branches (st : DashState) :
    ((loadProducts st Outcome.err).1.errorMessage = loadErrorMsg ∧
     (loadProducts st Outcome.err).1.isLoading = false ∧
     (loadProducts st Outcome.err).1.products = st.products) ∧
    (formValid st.form = true →
      (onSubmit st Outcome.err).1.errorMessage = addErrorMsg ∧
      (onSubmit st Outcome.err).1.isLoading = st.isLoading ∧
      (onSubmit st Outcome.err).1.products = st.products) ∧
    ((pendingTruthy st.productToDelete && st.modalRef) = true →
      (confirmDelete st Outcome.err).1.errorMessage = deleteErrorMsg ∧
      (confirmDelete st Outcome.err).1.isLoading = false ∧
      (confirmDelete st Outcome.err).1.products = st.products) ∧
    ((resetDatabase st true Outcome.err).1.errorMessage = resetErrorMsg ∧
     (resetDatabase st true Outcome.err).1.isLoading = false ∧
     (resetDatabase st true Outcome.err).1.products = st.products) := by
  refine ⟨?_, fun hf => ?_, fun hg => ?_, ?_⟩
  · simp [loadProducts]
  · simp [onSubmit, hf]
  · simp [confirmDelete, hg]
  · simp [resetDatabase]

/-- Witness for C4 (amended) at a concrete state with a valid form, a
pending delete and a held dialog. -/
theorem networkError_branches_witness :
    formValid Samples.errorBranchState.form = true ∧
    (pendingTruthy Samples.errorBranchState.productToDelete &&
      Samples.errorBranchState.modalRef) = true ∧
    (onSubmit Samples.errorBranchState Outcome.err).1.isLoading =
      Samples.errorBranchState.isLoading ∧
    (confirmDelete Samples.errorBranchState Outcome.err).1.products =
      Samples.errorBranchState.products :=
  ⟨by decide, by decide,
   ((networkError_branches Samples.errorBranchState).2.1 (by decide)).2.1,
   ((networkError_branches Samples.errorBranchState).2.2.1 (by decide)).2.2⟩

/-- Claim C5: when exactly one listed product carries the pending id, a
successful confirmDelete removes exactly that entry and no other, the
length drops by one, isLoading ends false and the pending id is
cleared. -/
theorem confirmDelete_success_unique (st : DashState) (id : Nat)
    (hp : st.productToDelete = some id) (hz : id ≠ 0) (hm : st.modalRef = true)
    (hone : st.products.countP (fun p => p.id == some id) = 1) :
    (confirmDelete st (Outcome.ok ())).1.products.length + 1 = st.products.length ∧
    (∀ p ∈ st.products, p.id ≠ some id → p ∈ (confirmDelete st (Outcome.ok ())).1.products) ∧
    (∀ p ∈ (confirmDelete st (Outcome.ok ())).1.products, p.id ≠ some id ∧ p ∈ st.products) ∧
    (confirmDelete st (Outcome.ok ())).1.isLoading = false ∧
    (confirmDelete st (Outcome.ok ())).1.productToDelete = none ∧
    (confirmDelete st (Outcome.ok ())).2 = [Call.deleteProduct id] := by
  have hred :
      confirmDelete st (Outcome.ok ()) =
        ({ st with
            products := st.products.filter (fun p => p.id != some id),
            isLoading := false, errorMessage := "", modalOpen := false,
            productToDelete := none }, [Call.deleteProduct id]) := by
    simp [confirmDelete, pendingTruthy, hp, hm, hz]
  rw [hred]
  refine ⟨?_, ?_, ?_, rfl, rfl, rfl⟩
  · have h := length_filter_not st.products (fun p => p.id == some id)
    rw [hone] at h
    simpa [bne] using h
  · intro p hmem hne
    simp only [List.mem_filter]
    exact ⟨hmem, by simpa [bne_iff_ne] using hne⟩
  · intro p hmem
    simp only [List.mem_filter] at hmem
    exact ⟨by simpa [bne_iff_ne] using hmem.2, hmem.1⟩

/-- Witness for C5 at a concrete two-product state deleting id 1. -/
theorem confirmDelete_success_unique_witness :
    Samples.deleteState.productToDelete = some 1 ∧ (1 : Nat) ≠ 0 ∧
    Samples.deleteState.modalRef = true ∧
    Samples.deleteState.products.countP (fun p => p.id == some 1) = 1 ∧
    (confirmDelete Samples.deleteState (Outcome.ok ())).1.products.length + 1 =
      Samples.deleteState.products.length ∧
    (confirmDelete Samples.deleteState (Outcome.ok ())).1.productToDelete = none :=
  ⟨rfl, by decide, rfl, by decide,
   (confirmDelete_success_unique Samples.deleteState 1 rfl (by decide) rfl (by decide)).1,
   (confirmDelete_success_unique Samples.deleteState 1 rfl (by decide) rfl
     (by decide)).2.2.2.2.1⟩

end Dashboard

namespace ProductService

/-- forkJoin of a nonempty batch emits the gathered results. -/
theorem forkJoin_ne_nil {α : Type} (ops : List (NetState → α × NetState)) (h : ops ≠ [])
    (s : NetState) : forkJoin ops s = (some (runAll ops s).1, (runAll ops s).2) := by
  cases ops with
  | nil => exact absurd rfl h
  | cons op rest => rfl

/-- Running a batch of POSTs appends the annotated rows, bumps nextId by
the batch size, emits the created products in payload order and appends
one POST request per payload. -/
theorem runAll_add (ps : List Product) (s : NetState) :
    runAll (ps.map addProductOp) s =
      (annotate ps s.backend.nextId,
       { backend := { rows := s.backend.rows ++ annotateRows ps s.backend.nextId,
                      nextId := s.backend.nextId + ps.length },
         trace := s.trace ++ ps.map Request.post }) := by
  induction ps generalizing s with
  | nil => simp [runAll, annotate, annotateRows]
  | cons p rest ih =>
      simp only [List.map_cons, runAll, addProductOp, ih, annotate, annotateRows, toProduct]
      simp [List.append_assoc, Nat.add_assoc, Nat.add_comm, Nat.add_left_comm]

/-- Running a batch of DELETEs folds the deletions over the stored rows,
leaves nextId alone and appends one DELETE request per id. -/
theorem runAll_delete (ids : List Nat) (s : NetState) :
    runAll (ids.map deleteProductOp) s =
      (List.replicate ids.length (),
       { backend := { rows := ids.foldl deleteRow s.backend.rows, nextId := s.backend.nextId },
         trace := s.trace ++ ids.map Request.delete }) := by
  induction ids generalizing s with
  | nil => simp [runAll]
  | cons i rest ih =>
      simp only [List.map_cons, runAll, deleteProductOp, ih, List.foldl_cons]
      simp [deleteRow, List.replicate]

/-- Folding deletions is filtering by all the deleted ids at once. -/
theorem foldl_deleteRow_eq_filter (ids : List Nat) (rows : List Row) :
    ids.foldl deleteRow rows = rows.filter (fun r => ids.all (fun i => r.id != i)) := by
  induction ids generalizing rows with
  | nil => simp
  | cons i rest ih =>
      rw [List.foldl_cons, ih]
      simp only [deleteRow, List.filter_filter]
      congr 1
      funext r
      simp [List.all_cons, Bool.and_comm]

/-- Deleting every stored row id empties the backend. -/
theorem foldl_deleteRow_self (rows : List Row) :
    (rows.map Row.id).foldl deleteRow rows = [] := by
  rw [foldl_deleteRow_eq_filter]
  simp only [List.filter_eq_nil_iff]
  intro r hr h
  rw [List.all_eq_true] at h
  have h2 := h r.id (List.mem_map.mpr ⟨r, hr, rfl⟩)
  simp at h2

/-- The create phase of resetDatabase: the six seeds are posted in order
onto whatever backend remains. -/
theorem createPhase (s : NetState) :
    forkJoin (initialProducts.map (fun p => addProductOp p)) s =
      (some (annotate initialProducts s.backend.nextId),
       { backend := { rows := s.backend.rows ++ annotateRows initialProducts s.backend.nextId,
                      nextId := s.backend.nextId + 6 },
         trace := s.trace ++ initialProducts.map Request.post }) := by
  rw [forkJoin_ne_nil _ (by simp [initialProducts]), runAll_add]
  simp [initialProducts]


/-- Claim C1: for every starting backend, resetDatabase first lists the
products, then issues one DELETE per existing row (all of them before
any create, skipping the join entirely when nothing exists), then issues
one POST per seed product, and emits exactly the six created seed
products in seed-list order; the backend ends holding exactly those six
rows under fresh consecutive ids. -/
theorem resetDatabase_spec (b : Backend) :
    resetDatabase { backend := b, trace := [] } =
      (some (annotate initialProducts b.nextId),
       { backend := { rows := annotateRows initialProducts b.nextId, nextId := b.nextId + 6 },
         trace := Request.getAll ::
           (b.rows.map (fun r => Request.delete r.id) ++ initialProducts.map Request.post) }) := by
  obtain ⟨rows, nextId⟩ := b
  cases rows with
  | nil =>
      simp only [resetDatabase, getProductsOp, List.map_nil, List.length_nil, if_pos]
      rw [createPhase]
      simp
  | cons r rs =>
      have hmap : ((r :: rs).map toProduct).map (fun p => deleteProductOp (p.id.getD 0)) =
          ((r :: rs).map Row.id).map deleteProductOp := by
        simp [List.map_map, toProduct, Function.comp]
      simp only [resetDatabase, getProductsOp, hmap]
      rw [forkJoin_ne_nil _ (by simp), runAll_delete]
      simp only [foldl_deleteRow_self]
      rw [createPhase]
      simp [List.map_map, Function.comp]

end ProductService

namespace ClpCurrencyPipe

/-- The ten decimal digit characters are digits and are none of the
separator, sign or symbol characters. -/
theorem digitChar_facts : ∀ m, m < 10 →
    (Nat.digitChar m).isDigit = true ∧ Nat.digitChar m ≠ '.' ∧
    Nat.digitChar m ≠ '$' ∧ Nat.digitChar m ≠ '-' := by decide

/-- toDigitsCore with no fuel returns the accumulator. -/
theorem toDigitsCore_zero (b n : Nat) (ds : List Char) :
    Nat.toDigitsCore b 0 n ds = ds := rfl

/-- Every character produced by toDigitsCore is a decimal digit character
or comes from the accumulator. -/
theorem mem_toDigitsCore (fuel : Nat) : ∀ (n : Nat) (ds : List Char),
    ∀ c ∈ Nat.toDigitsCore 10 fuel n ds, (∃ m, m < 10 ∧ c = Nat.digitChar m) ∨ c ∈ ds := by
  induction fuel with
  | zero => intro n ds c hc; exact Or.inr hc
  | succ fuel ih =>
      intro n ds c hc
      simp only [Nat.toDigitsCore] at hc
      split at hc
      · rcases List.mem_cons.mp hc with h | h
        · exact Or.inl ⟨n % 10, Nat.mod_lt _ (by norm_num), h⟩
        · exact Or.inr h
      · rcases ih (n / 10) (Nat.digitChar (n % 10) :: ds) c hc with h | h
        · exact Or.inl h
        · rcases List.mem_cons.mp h with h2 | h2
          · exact Or.inl ⟨n % 10, Nat.mod_lt _ (by norm_num), h2⟩
          · exact Or.inr h2

/-- toDigitsCore with fuel strictly grows the accumulator. -/
theorem toDigitsCore_length (fuel : Nat) : ∀ (n : Nat) (ds : List Char), fuel ≠ 0 →
    ds.length < (Nat.toDigitsCore 10 fuel n ds).length := by
  induction fuel with
  | zero => intro n ds h; exact absurd rfl h
  | succ fuel ih =>
      intro n ds _
      simp only [Nat.toDigitsCore]
      split
      · simp
      · by_cases hf : fuel = 0
        · subst hf; rw [toDigitsCore_zero]; simp
        · exact Nat.lt_trans (by simp) (ih (n / 10) (Nat.digitChar (n % 10) :: ds) hf)

/-- The rendered digit list of a natural number is never empty. -/
theorem toDigits_ne_nil (n : Nat) : Nat.toDigits 10 n ≠ [] := by
  have h := toDigitsCore_length (n + 1) n [] (Nat.succ_ne_zero n)
  intro hnil
  rw [Nat.toDigits] at hnil
  rw [hnil] at h
  simp at h

/-- Every rendered character of a natural number is a decimal digit
character. -/
theorem mem_toDigits (n : Nat) : ∀ c ∈ Nat.toDigits 10 n,
    ∃ m, m < 10 ∧ c = Nat.digitChar m := by
  intro c hc
  rw [Nat.toDigits] at hc
  rcases mem_toDigitsCore (n + 1) n [] c hc with h | h
  · exact h
  · simp at h

/-- Characters of the grouped rendering: the separator or an input
character. -/
theorem mem_groupRevAux : ∀ (ds : List Char) (k : Nat),
    ∀ c ∈ groupRevAux ds k, c = '.' ∨ c ∈ ds := by
  intro ds
  induction ds with
  | nil => intro k c hc; simp [groupRevAux] at hc
  | cons a cs ih =>
      intro k c hc
      rw [groupRevAux] at hc
      by_cases h : k = 3
      · rw [if_pos h] at hc
        rcases List.mem_cons.mp hc with h1 | h1
        · exact Or.inl h1
        · rcases List.mem_cons.mp h1 with h2 | h2
          · exact Or.inr (by simp [h2])
          · rcases ih 1 c h2 with h3 | h3
            · exact Or.inl h3
            · exact Or.inr (List.mem_cons_of_mem _ h3)
      · rw [if_neg h] at hc
        rcases List.mem_cons.mp hc with h1 | h1
        · exact Or.inr (by simp [h1])
        · rcases ih (k + 1) c h1 with h3 | h3
          · exact Or.inl h3
          · exact Or.inr (List.mem_cons_of_mem _ h3)

/-- Dropping the separators of the grouped rendering recovers the input
characters that are not separators. -/
theorem groupRevAux_filter : ∀ (ds : List Char) (k : Nat),
    (groupRevAux ds k).filter (fun c => c != '.') = ds.filter (fun c => c != '.') := by
  intro ds
  induction ds with
  | nil => intro k; rfl
  | cons a cs ih =>
      intro k
      rw [groupRevAux]
      by_cases h : k = 3
      · rw [if_pos h]
        simp [List.filter_cons, ih]
      · rw [if_neg h]
        simp [List.filter_cons, ih]

/-- The grouped rendering of a nonempty digit list satisfies the
spec-side cluster check. -/
theorem wgRev_groupRevAux : ∀ (ds : List Char) (k : Nat),
    (∀ c ∈ ds, c.isDigit = true) → k ≤ 3 → (ds ≠ [] ∨ 1 ≤ k) →
    wgRev (groupRevAux ds k) k = true := by
  intro ds
  induction ds with
  | nil =>
      intro k _ hk hne
      rcases hne with h | h
      · exact absurd rfl h
      · rw [groupRevAux, wgRev]
        simp only [Bool.and_eq_true, decide_eq_true_eq]
        exact ⟨h, hk⟩
  | cons a cs ih =>
      intro k hd hk hne
      have ha : a.isDigit = true := hd a (by simp)
      have hadot : ¬ a = '.' := by
        intro h
        rw [h] at ha
        exact absurd ha (by decide)
      rw [groupRevAux]
      by_cases h : k = 3
      · rw [if_pos h]
        subst h
        rw [wgRev, if_pos rfl]
        simp only [beq_self_eq_true, Bool.true_and]
        rw [wgRev, if_neg hadot]
        have hrec := ih 1 (fun c hc => hd c (by simp [hc])) (by norm_num)
          (Or.inr (by norm_num))
        simp [ha, hrec]
      · rw [if_neg h]
        rw [wgRev, if_neg hadot]
        have hk3 : k < 3 := lt_of_le_of_ne hk h
        have hrec := ih (k + 1) (fun c hc => hd c (by simp [hc])) (by omega)
          (Or.inr (by omega))
        simp [ha, hk3, hrec]

/-- The formatter output passes the spec-side cluster check. -/
theorem formatNat_wellGrouped (n : Nat) : wellGrouped (formatNat n) = true := by
  show wgRev ((groupRevAux (Nat.toDigits 10 n).reverse 0).reverse).reverse 0 = true
  rw [List.reverse_reverse]
  apply wgRev_groupRevAux
  · intro c hc
    rw [List.mem_reverse] at hc
    obtain ⟨m, hm, rfl⟩ := mem_toDigits n c hc
    exact (digitChar_facts m hm).1
  · norm_num
  · left
    intro hnil
    rw [List.reverse_eq_nil_iff] at hnil
    exact toDigits_ne_nil n hnil

/-- Dropping the separators of the formatter output yields the decimal
representation. -/
theorem formatNat_digits (n : Nat) :
    String.mk ((formatNat n).data.filter (fun c => c != '.')) = Nat.repr n := by
  have h1 : (formatNat n).data = (groupRevAux (Nat.toDigits 10 n).reverse 0).reverse := rfl
  rw [h1, List.filter_reverse, groupRevAux_filter, List.filter_reverse, List.reverse_reverse]
  have h2 : (Nat.toDigits 10 n).filter (fun c => c != '.') = Nat.toDigits 10 n := by
    rw [List.filter_eq_self]
    intro c hc
    obtain ⟨m, hm, rfl⟩ := mem_toDigits n c hc
    simpa [bne_iff_ne] using (digitChar_facts m hm).2.1
  rw [h2]
  rfl

/-- A character that is neither the separator nor a decimal digit never
occurs in the formatter output. -/
theorem formatNat_not_mem (n : Nat) (c : Char) (hdot : c ≠ '.')
    (hdig : ∀ m, m < 10 → c ≠ Nat.digitChar m) : c ∉ (formatNat n).data := by
  intro hc
  rw [show (formatNat n).data = (groupRevAux (Nat.toDigits 10 n).reverse 0).reverse from rfl]
    at hc
  rw [List.mem_reverse] at hc
  rcases mem_groupRevAux _ 0 c hc with h | h
  · exact hdot h
  · rw [List.mem_reverse] at h
    obtain ⟨m, hm, rfl⟩ := mem_toDigits n c h
    exact hdig m hm rfl

end ClpCurrencyPipe

namespace ClpCurrencyPipe

/-- Claim C2: null, undefined and NaN render as the zero string with or
without the symbol; a numeric value renders its integer digits grouped in
dot-separated clusters of three with no fractional digits (dropping the
separators recovers exactly the decimal representation), with the
negative sign immediately before the digits; the quoted examples hold. -/
theorem transform_spec :
    (∀ sym, transform NumInput.null sym = (if sym then "$0" else "0") ∧
            transform NumInput.undef sym = (if sym then "$0" else "0") ∧
            transform NumInput.nan sym = (if sym then "$0" else "0")) ∧
    (∀ n : Nat, wellGrouped (transform (NumInput.num (n : Int)) false) = true ∧
      String.mk ((transform (NumInput.num (n : Int)) false).data.filter (fun c => c != '.')) =
        Nat.repr n) ∧
    (∀ n : Nat, transform (NumInput.num (-((n + 1 : Nat) : Int))) false =
      "-" ++ transform (NumInput.num ((n + 1 : Nat) : Int)) false) ∧
    (∀ v : Int, transform (NumInput.num v) true = "$" ++ transform (NumInput.num v) false) ∧
    transform (NumInput.num 100) true = "$100" ∧
    transform (NumInput.num 1000) true = "$1.000" ∧
    transform (NumInput.num 849990) true = "$849.990" ∧
    transform (NumInput.num 1000000) true = "$1.000.000" ∧
    transform (NumInput.num (-1000)) true = "$-1.000" := by
  refine ⟨fun sym => ⟨rfl, rfl, rfl⟩, ?_, ?_, fun v => rfl, ?_, ?_, ?_, ?_, ?_⟩
  · intro n
    have hnn : ¬ ((n : Int) < 0) := by omega
    constructor
    · show wellGrouped (toLocaleStringEsCL (n : Int)) = true
      rw [toLocaleStringEsCL, if_neg hnn, Int.natAbs_ofNat]
      exact formatNat_wellGrouped n
    · show String.mk ((toLocaleStringEsCL (n : Int)).data.filter (fun c => c != '.')) = _
      rw [toLocaleStringEsCL, if_neg hnn, Int.natAbs_ofNat]
      exact formatNat_digits n
  · intro n
    have hlt : (-(((n + 1 : Nat)) : Int)) < 0 := by omega
    have hge : ¬ ((((n + 1 : Nat)) : Int) < 0) := by omega
    show toLocaleStringEsCL (-((n + 1 : Nat) : Int)) =
      "-" ++ toLocaleStringEsCL ((n + 1 : Nat) : Int)
    rw [toLocaleStringEsCL, toLocaleStringEsCL, if_pos hlt, if_neg hge, Int.natAbs_neg,
      Int.natAbs_ofNat]
  · rfl
  · rfl
  · rfl
  · rfl
  · rfl

/-- Claim C7: with the symbol the output always starts with the dollar
sign, dollar then minus for a negative value; without the symbol the
dollar sign never occurs in the output. -/
theorem transform_symbol_spec :
    (∀ value, (transform value true).data.head? = some '$') ∧
    (∀ n : Nat, (transform (NumInput.num (-((n + 1 : Nat) : Int))) true).data.take 2 =
      ['$', '-']) ∧
    (∀ value, '$' ∉ (transform value false).data) := by
  refine ⟨?_, ?_, ?_⟩
  · intro value
    cases value with
    | null => rfl
    | undef => rfl
    | nan => rfl
    | num v =>
        show (("$" ++ toLocaleStringEsCL v)).data.head? = some '$'
        rfl
  · intro n
    have hlt : (-(((n + 1 : Nat)) : Int)) < 0 := by omega
    show (("$" ++ toLocaleStringEsCL _)).data.take 2 = _
    rw [toLocaleStringEsCL, if_pos hlt]
    rfl
  · intro value
    cases value with
    | null => decide
    | undef => decide
    | nan => decide
    | num v =>
        show '$' ∉ (toLocaleStringEsCL v).data
        rw [toLocaleStringEsCL]
        by_cases h : v < 0
        · rw [if_pos h, String.data_append]
          intro hc
          rcases List.mem_append.mp hc with h1 | h1
          · simp at h1
          · exact formatNat_not_mem _ '$' (by decide)
              (fun m hm => ((digitChar_facts m hm).2.2.1).symm) h1
        · rw [if_neg h]
          exact formatNat_not_mem _ '$' (by decide)
            (fun m hm => ((digitChar_facts m hm).2.2.1).symm)

end ClpCurrencyPipe
